import Mathlib

/-!
Shallow embedding of the `faulthandler` C extension
(src/faulthandler/handler.c, src/faulthandler/module.c).

The process-global mutable state of handler.c (the flag
`faulthandler_enabled`, the cached descriptor `fatal_error_fd`, the fixed
handler table `fault_handlers`, the alternate stack `stack`, the watchdog
configuration `fault_alarm`, together with the OS-level per-signal
disposition table and the pending one-shot alarm) is modelled by a record
`ProcState`.  Each C function becomes a pure state transformer.  OS calls
whose results the code merely consumes (`fileno(stderr)`, `sigaction`
success, `PyMem_Malloc` success, `PyGILState_GetThisThreadState`,
`_Py_DumpTracebackThreads`-style provider errors) are supplied as oracle
records.  Side effects of the two signal handlers that are pure output
(`PUTS` raw writes and backtrace dumps) are recorded as an event trace.
-/

/-- Signal numbers, with their usual Linux values.  Only their identity and
distinctness matter for the model. -/
def SIGILL : Int := 4

def SIGBUS : Int := 7

def SIGFPE : Int := 8

def SIGSEGV : Int := 11

def SIGALRM : Int := 14

/-- An OS signal disposition (`_Py_sighandler_t`): the default action, one of
the two handlers installed by this module, or some other opaque handler. -/
inductive Disposition where
  | dfl : Disposition
  | fatalHandler : Disposition
  | alarmHandler : Disposition
  | other : Nat → Disposition
deriving DecidableEq, Repr

/-- One entry of the fixed handler table (`fault_handler_t` in handler.c). -/
structure fault_handler_t where
  signum : Int
  enabled : Bool
  name : String
  previous : Disposition
deriving DecidableEq, Repr

/-- The `fault_signals` array of handler.c, with every conditional signal
present (SIGBUS and SIGILL defined).  SIGSEGV is deliberately last. -/
def fault_signals : List Int := [SIGBUS, SIGILL, SIGFPE, SIGSEGV]

/-- `NFAULT_SIGNALS` of handler.c. -/
def NFAULT_SIGNALS : Nat := fault_signals.length

/-- The OS per-signal disposition table, as an association list from signal
number to disposition.  A signal absent from the list has the default
disposition. -/
abbrev DispTable : Type := List (Int × Disposition)

/-- Read the current disposition of a signal (what `sigaction` reports in
`oldact`). -/
def getDisp : DispTable → Int → Disposition
  | [], _ => .dfl
  | (x, v) :: t, sig => if x = sig then v else getDisp t sig

/-- Install a disposition for a signal (what `sigaction`/`signal` do on
success). -/
def setDisp : DispTable → Int → Disposition → DispTable
  | [], sig, v => [(sig, v)]
  | (x, w) :: t, sig, v =>
      if x = sig then (x, v) :: t else (x, w) :: setDisp t sig v

/-- The process state: every global of handler.c plus the OS state the code
drives (signal dispositions and the pending `alarm(2)` timer, in seconds;
`0` means no pending timer, as in POSIX). -/
structure ProcState where
  faulthandler_enabled : Bool
  fatal_error_fd : Int
  fault_handlers : List fault_handler_t
  stack_ss_sp : Bool
  atexit_count : Nat
  fault_alarm_fd : Int
  fault_alarm_delay : Int
  fault_alarm_repeat : Bool
  fault_alarm_all_threads : Bool
  dispositions : DispTable
  pending_alarm : Nat
deriving DecidableEq, Repr

/-- The process state right after module load (`faulthandler_init` plus the
static initialisers of handler.c: `fatal_error_fd = 2`, zeroed
`fault_handlers` and `fault_alarm`). -/
def initial_state : ProcState where
  faulthandler_enabled := false
  fatal_error_fd := 2
  fault_handlers :=
    List.replicate NFAULT_SIGNALS
      { signum := 0, enabled := false, name := "", previous := .dfl }
  stack_ss_sp := false
  atexit_count := 0
  fault_alarm_fd := 0
  fault_alarm_delay := 0
  fault_alarm_repeat := false
  fault_alarm_all_threads := false
  dispositions := []
  pending_alarm := 0

/-- Observable output actions of the two signal handlers: restoring a
previous disposition, clearing an entry's `enabled` flag, a raw `PUTS`
write, and the two backtrace-provider calls. -/
inductive OutEvent where
  | restorePrev : Int → OutEvent
  | clearEnabled : Int → OutEvent
  | putsMsg : Int → String → OutEvent
  | dumpBacktrace : Int → OutEvent
  | dumpThreads : Int → OutEvent
deriving DecidableEq, Repr

/-- Events that restore the previous handler disposition. -/
def OutEvent.isRestore : OutEvent → Bool
  | .restorePrev _ => true
  | _ => false

/-- Events that clear an entry's `enabled` flag. -/
def OutEvent.isClear : OutEvent → Bool
  | .clearEnabled _ => true
  | _ => false

/-- Diagnostic work: raw writes and backtrace-provider invocations. -/
def OutEvent.isDiagnostic : OutEvent → Bool
  | .putsMsg _ _ => true
  | .dumpBacktrace _ => true
  | .dumpThreads _ => true
  | _ => false

/-- The display name chosen for a signal by the first loop of
`faulthandler_enable` (handler.c lines 182-198). -/
def signal_name (signum : Int) : String :=
  if signum = SIGFPE then "Floating point exception"
  else if signum = SIGBUS then "Bus error"
  else if signum = SIGILL then "Illegal instruction"
  else "Segmentation fault"

/-- The linear scan of `faulthandler_fatal_error` (handler.c lines 62-66):
the C loop leaves `handler` pointing at the first matching entry, or at the
last entry when no entry matches (the pointer keeps its final assignment
when the loop runs out). -/
def scan_index : List fault_handler_t → Int → Nat
  | [], _ => 0
  | [_], _ => 0
  | h :: t :: u, signum =>
      if h.signum = signum then 0 else scan_index (t :: u) signum + 1

/-- Replace the entry at an index by a function of the old entry; identity
out of range. -/
def modify_entry : List fault_handler_t → Nat →
    (fault_handler_t → fault_handler_t) → List fault_handler_t
  | [], _, _ => []
  | h :: t, 0, f => f h :: t
  | h :: t, n + 1, f => h :: modify_entry t n f

/-- `faulthandler_fatal_error` (handler.c lines 54-79): find the entry for
the delivered signal, restore its previous disposition via `sigaction`,
clear `enabled`, then `PUTS` the fixed message, the entry name and a blank
line, and call the backtrace provider.  Returns the new state and the trace
of actions in program order.  The empty-table case cannot occur in the C
code (the array has static size `NFAULT_SIGNALS`). -/
def faulthandler_fatal_error (signum : Int) (s : ProcState) :
    ProcState × List OutEvent :=
  let fd := s.fatal_error_fd
  let i := scan_index s.fault_handlers signum
  match s.fault_handlers.get? i with
  | none => (s, [])
  | some h =>
      ({ s with
          dispositions := setDisp s.dispositions h.signum h.previous,
          fault_handlers :=
            modify_entry s.fault_handlers i fun e => { e with enabled := false } },
        [.restorePrev h.signum, .clearEnabled h.signum,
          .putsMsg fd "Fatal Python error: ", .putsMsg fd h.name,
          .putsMsg fd "\n\n", .dumpBacktrace fd])

/-- The concatenation of raw `PUTS` writes a fatal-fault delivery produces
(the provider's own dump output is external and not part of it). -/
def fatal_output (signum : Int) (s : ProcState) : String :=
  (faulthandler_fatal_error signum s).2.foldl
    (fun acc e =>
      match e with
      | .putsMsg _ m => acc ++ m
      | _ => acc) ""

/-- Character-list prefix test, used to state "the diagnostic begins
with ...". -/
def charsLead : List Char → List Char → Bool
  | [], _ => true
  | _ :: _, [] => false
  | a :: t, b :: u => a == b && charsLead t u

/-- String prefix test via the underlying character lists. -/
def strLeads (p s : String) : Bool := charsLead p.data s.data

/-- Results of the OS/runtime calls `faulthandler_enable` consumes:
`get_stderr()` (i.e. `fileno(stderr)`, `-1` on failure), whether
`PyMem_Malloc` for the alternate stack succeeds, and per-signal success of
the `sigaction` installation loop. -/
structure EnableOracle where
  stderr_fd : Int
  altstack_ok : Bool
  install_ok : List Bool
deriving DecidableEq, Repr

/-- The first loop of `faulthandler_enable` (lines 182-198): set `signum`,
clear `enabled`, pick the display name; `previous` keeps its old value. -/
def populate_entry (old : fault_handler_t) (sig : Int) : fault_handler_t :=
  { old with signum := sig, enabled := false, name := signal_name sig }

/-- The second loop of `faulthandler_enable` (lines 200-214): for each entry
try to install `faulthandler_fatal_error`; on success capture the old
disposition into `previous` and set `enabled`, on failure leave the entry
alone.  Threads the OS disposition table through. -/
def install_handlers :
    List fault_handler_t → List Bool → DispTable →
      List fault_handler_t × DispTable
  | [], _, d => ([], d)
  | h :: t, oks, d =>
      if oks.headD false then
        let h' := { h with previous := getDisp d h.signum, enabled := true }
        let r := install_handlers t oks.tail (setDisp d h.signum .fatalHandler)
        (h' :: r.1, r.2)
      else
        let r := install_handlers t oks.tail d
        (h :: r.1, r.2)

/-- `faulthandler_enable` (handler.c lines 146-216).  Returns the raised
Python exception message, if any, together with the state after the call.
Note that the C code assigns `fatal_error_fd = get_stderr()` before testing
it against `-1`, so even the failing path overwrites the cached
descriptor; likewise line 175 assigns `stack.ss_sp = PyMem_Malloc(...)`
unconditionally, so a failed allocation nulls any previously allocated
alternate stack. -/
def faulthandler_enable (o : EnableOracle) (s : ProcState) :
    Option String × ProcState :=
  if s.faulthandler_enabled then (none, s)
  else
    let s1 := { s with fatal_error_fd := o.stderr_fd }
    if s1.fatal_error_fd = -1 then
      (some "unable to get the file descriptor of the standard error", s1)
    else
      let s2 := { s1 with faulthandler_enabled := true }
      let s3 := { s2 with stack_ss_sp := o.altstack_ok }
      let s4 := { s3 with atexit_count := s3.atexit_count + 1 }
      let entries := List.zipWith populate_entry s4.fault_handlers fault_signals
      let r := install_handlers entries o.install_ok s4.dispositions
      (none, { s4 with fault_handlers := r.1, dispositions := r.2 })

/-- The loop of `faulthandler_disable` (lines 228-238): entries with
`enabled` get their `previous` disposition reinstalled and the flag
cleared; entries without are skipped. -/
def restore_handlers :
    List fault_handler_t → DispTable → List fault_handler_t × DispTable
  | [], d => ([], d)
  | h :: t, d =>
      if h.enabled then
        let r := restore_handlers t (setDisp d h.signum h.previous)
        ({ h with enabled := false } :: r.1, r.2)
      else
        let r := restore_handlers t d
        (h :: r.1, r.2)

/-- `faulthandler_disable` (handler.c lines 218-242). -/
def faulthandler_disable (s : ProcState) : ProcState :=
  if s.faulthandler_enabled then
    let s1 := { s with faulthandler_enabled := false }
    let r := restore_handlers s1.fault_handlers s1.dispositions
    { s1 with fault_handlers := r.1, dispositions := r.2 }
  else s

/-- `faulthandler_isenabled` (handler.c lines 244-248). -/
def faulthandler_isenabled (s : ProcState) : Bool :=
  s.faulthandler_enabled

/-- `faulthandler_cancel_dumpbacktrace_later` (lines 292-296): `alarm(0)`. -/
def faulthandler_cancel_dumpbacktrace_later (s : ProcState) : ProcState :=
  { s with pending_alarm := 0 }

/-- Results of the OS calls `faulthandler_dumpbacktrace_later` consumes:
`get_stderr()` and whether `signal(SIGALRM, ...)` succeeds. -/
structure ArmOracle where
  stderr_fd : Int
  signal_ok : Bool
deriving DecidableEq, Repr

/-- `faulthandler_dumpbacktrace_later` (handler.c lines 250-290), the
watchdog arm operation.  Returns the raised exception message, if any, and
the state after the call.  `alarm(delay)` with a positive `delay` schedules
the one-shot timer. -/
def faulthandler_dumpbacktrace_later (o : ArmOracle) (delay : Int)
    (repeat_flag all_threads : Bool) (s : ProcState) :
    Option String × ProcState :=
  if delay ≤ 0 then (some "delay must be greater than 0", s)
  else if o.stderr_fd = -1 then
    (some "unable to get stderr file descriptor", s)
  else if o.signal_ok then
    let s1 := { s with dispositions := setDisp s.dispositions SIGALRM .alarmHandler }
    let s2 := { s1 with
      fault_alarm_fd := o.stderr_fd,
      fault_alarm_delay := delay,
      fault_alarm_repeat := repeat_flag,
      fault_alarm_all_threads := all_threads,
      pending_alarm := delay.toNat }
    (none, s2)
  else (some "unable to set SIGALRM handler", s)

/-- Results of the runtime calls `faulthandler_alarm` consumes: the
thread-local lookup `PyGILState_GetThisThreadState()` (a `none` means no
execution context for the calling thread) and the provider error message of
`faulthandler_dump_backtrace_threads` (a `none` means success). -/
structure FireOracle where
  current_thread : Option Unit
  dump_threads_err : Option String
deriving DecidableEq, Repr

/-- The common tail of `faulthandler_alarm` (lines 112-115):
`if (ok && fault_alarm.repeat) alarm(fault_alarm.delay); else cancel();`. -/
def alarm_finish (ok : Bool) (s : ProcState) : ProcState :=
  if ok && s.fault_alarm_repeat then
    { s with pending_alarm := s.fault_alarm_delay.toNat }
  else faulthandler_cancel_dumpbacktrace_later s

/-- `faulthandler_alarm` (handler.c lines 86-116), the SIGALRM handler
body. -/
def faulthandler_alarm (o : FireOracle) (s : ProcState) :
    ProcState × List OutEvent :=
  if s.fault_alarm_all_threads then
    match o.current_thread with
    | none => (s, [])
    | some _ =>
        let ok := o.dump_threads_err.isNone
        (alarm_finish ok s, [.dumpThreads s.fault_alarm_fd])
  else
    (alarm_finish true s, [.dumpBacktrace s.fault_alarm_fd])

/-- Delivery of SIGALRM by the OS: a POSIX `alarm` timer is one-shot, so the
pending timer is consumed before the handler body runs. -/
def deliver_alarm (o : FireOracle) (s : ProcState) :
    ProcState × List OutEvent :=
  faulthandler_alarm o { s with pending_alarm := 0 }

/-- Whether the fire path actually performed a dump that succeeded: in
all-threads mode an execution context must be found and the provider must
report no error; in current-thread mode the dump always succeeds. -/
def dump_ok (o : FireOracle) (s : ProcState) : Bool :=
  if s.fault_alarm_all_threads then
    o.current_thread.isSome && o.dump_threads_err.isNone
  else true

/-- An environment where every OS call made by `faulthandler_enable`
succeeds. -/
def o_all_ok : EnableOracle where
  stderr_fd := 2
  altstack_ok := true
  install_ok := [true, true, true, true]

/-- The state after a fully successful `faulthandler_enable` from the
just-loaded state. -/
def enabled_state : ProcState := (faulthandler_enable o_all_ok initial_state).2

/-! ### Lemmas about the disposition table -/

theorem getDisp_setDisp_self (d : DispTable) (sig : Int) (v : Disposition) :
    getDisp (setDisp d sig v) sig = v := by
  induction d with
  | nil => simp [setDisp, getDisp]
  | cons p t ih =>
      obtain ⟨x, w⟩ := p
      by_cases hx : x = sig <;> simp [setDisp, getDisp, hx, ih]

theorem getDisp_setDisp_ne (d : DispTable) (x sig : Int) (v : Disposition)
    (h : x ≠ sig) : getDisp (setDisp d sig v) x = getDisp d x := by
  induction d with
  | nil =>
      have hsx : ¬ sig = x := fun hc => h hc.symm
      simp [setDisp, getDisp, hsx]
  | cons p t ih =>
      obtain ⟨y, w⟩ := p
      by_cases hy : y = sig
      · have hyx : ¬ y = x := fun hc => h (hy ▸ hc ▸ rfl)
        have hsx : ¬ sig = x := fun hc => h hc.symm
        simp [setDisp, getDisp, hy, hyx, hsx]
      · by_cases hyx : y = x
        · simp [setDisp, getDisp, hy, hyx, h]
        · simp [setDisp, getDisp, hy, hyx, ih]

/-! ### Lemmas about the disable loop -/

theorem restore_handlers_enabled_false :
    ∀ (l : List fault_handler_t) (d : DispTable),
      ∀ e ∈ (restore_handlers l d).1, e.enabled = false := by
  intro l
  induction l with
  | nil => intro d e he; simp [restore_handlers] at he
  | cons h t ih =>
      intro d e he
      by_cases hh : h.enabled <;>
        simp only [restore_handlers, hh, if_true, if_false, Bool.false_eq_true,
          List.mem_cons] at he <;>
        rcases he with he | he
      · rw [he]
      · exact ih _ e he
      · rw [he]; simpa using hh
      · exact ih _ e he

theorem restore_handlers_getDisp_of_not_mem :
    ∀ (l : List fault_handler_t) (d : DispTable) (sig : Int),
      sig ∉ l.map (·.signum) →
      getDisp (restore_handlers l d).2 sig = getDisp d sig := by
  intro l
  induction l with
  | nil => intro d sig _; simp [restore_handlers]
  | cons h t ih =>
      intro d sig hmem
      simp only [List.map_cons, List.mem_cons, not_or] at hmem
      obtain ⟨hne, hmem⟩ := hmem
      by_cases hh : h.enabled
      · simp only [restore_handlers, hh, if_true]
        rw [ih _ sig hmem, getDisp_setDisp_ne _ _ _ _ hne]
      · simp only [restore_handlers, hh, Bool.false_eq_true, if_false]
        exact ih _ sig hmem

theorem restore_handlers_restores :
    ∀ (l : List fault_handler_t) (d : DispTable),
      (l.map (·.signum)).Nodup →
      ∀ e ∈ l, e.enabled = true →
        getDisp (restore_handlers l d).2 e.signum = e.previous := by
  intro l
  induction l with
  | nil => intro d _ e he; simp at he
  | cons h t ih =>
      intro d hnd e he hen
      simp only [List.map_cons, List.nodup_cons] at hnd
      obtain ⟨hnotmem, hnd⟩ := hnd
      rcases List.mem_cons.mp he with rfl | hmem
      · rw [show restore_handlers (e :: t) d =
            (({ e with enabled := false } :: (restore_handlers t
                (setDisp d e.signum e.previous)).1,
              (restore_handlers t (setDisp d e.signum e.previous)).2)) by
            simp [restore_handlers, hen]]
        rw [restore_handlers_getDisp_of_not_mem t _ e.signum hnotmem,
          getDisp_setDisp_self]
      · by_cases hh : h.enabled <;>
          simp only [restore_handlers, hh, if_true, Bool.false_eq_true, if_false] <;>
          exact ih _ hnd e hmem hen

/-! ### Lemmas about the enable loops -/

theorem install_handlers_map_signum :
    ∀ (l : List fault_handler_t) (oks : List Bool) (d : DispTable),
      (install_handlers l oks d).1.map (·.signum) = l.map (·.signum) := by
  intro l
  induction l with
  | nil => intro oks d; simp [install_handlers]
  | cons h t ih =>
      intro oks d
      by_cases hk : oks.head?.getD false = true <;>
        simp [install_handlers, hk, ih]

theorem install_handlers_map_name :
    ∀ (l : List fault_handler_t) (oks : List Bool) (d : DispTable),
      (install_handlers l oks d).1.map (·.name) = l.map (·.name) := by
  intro l
  induction l with
  | nil => intro oks d; simp [install_handlers]
  | cons h t ih =>
      intro oks d
      by_cases hk : oks.head?.getD false = true <;>
        simp [install_handlers, hk, ih]

theorem install_handlers_of_all_false :
    ∀ (l : List fault_handler_t) (oks : List Bool) (d : DispTable),
      (∀ b ∈ oks, b = false) → install_handlers l oks d = (l, d) := by
  intro l
  induction l with
  | nil => intro oks d _; simp [install_handlers]
  | cons h t ih =>
      intro oks d hall
      have hhd : oks.head?.getD false = false := by
        cases oks with
        | nil => rfl
        | cons b obs => exact hall b (List.mem_cons_self b obs)
      have htl : ∀ b ∈ oks.tail, b = false := fun b hb =>
        hall b (List.mem_of_mem_tail hb)
      simp [install_handlers, hhd, ih oks.tail d htl]

theorem zipWith_populate_map_signum :
    ∀ (l : List fault_handler_t) (sigs : List Int), l.length = sigs.length →
      (List.zipWith populate_entry l sigs).map (·.signum) = sigs := by
  intro l
  induction l with
  | nil =>
      intro sigs hlen
      cases sigs with
      | nil => simp
      | cons a u => simp at hlen
  | cons h t ih =>
      intro sigs hlen
      cases sigs with
      | nil => simp at hlen
      | cons a u =>
          simp only [List.length_cons, Nat.add_right_cancel_iff] at hlen
          simp [populate_entry, ih u hlen]

theorem zipWith_populate_map_name :
    ∀ (l : List fault_handler_t) (sigs : List Int), l.length = sigs.length →
      (List.zipWith populate_entry l sigs).map (·.name) = sigs.map signal_name := by
  intro l
  induction l with
  | nil =>
      intro sigs hlen
      cases sigs with
      | nil => simp
      | cons a u => simp at hlen
  | cons h t ih =>
      intro sigs hlen
      cases sigs with
      | nil => simp at hlen
      | cons a u =>
          simp only [List.length_cons, Nat.add_right_cancel_iff] at hlen
          simp [populate_entry, ih u hlen]

theorem zipWith_populate_enabled_false :
    ∀ (l : List fault_handler_t) (sigs : List Int),
      ∀ e ∈ List.zipWith populate_entry l sigs, e.enabled = false := by
  intro l
  induction l with
  | nil => intro sigs e he; simp at he
  | cons h t ih =>
      intro sigs e he
      cases sigs with
      | nil => simp at he
      | cons a u =>
          simp only [List.zipWith_cons_cons, List.mem_cons] at he
          rcases he with rfl | he
          · rfl
          · exact ih u e he

/-- The success path of `faulthandler_enable` from the Disabled state, as one
equation: the cached fd is replaced, the flag set, the alternate-stack
pointer overwritten with the malloc result (null on failure), the atexit
hook registered, and the table repopulated and reinstalled. -/
theorem faulthandler_enable_shape (o : EnableOracle) (s : ProcState)
    (h1 : s.faulthandler_enabled = false) (h2 : ¬ o.stderr_fd = -1) :
    faulthandler_enable o s =
      (none,
        { faulthandler_enabled := true
          fatal_error_fd := o.stderr_fd
          fault_handlers :=
            (install_handlers
              (List.zipWith populate_entry s.fault_handlers fault_signals)
              o.install_ok s.dispositions).1
          stack_ss_sp := o.altstack_ok
          atexit_count := s.atexit_count + 1
          fault_alarm_fd := s.fault_alarm_fd
          fault_alarm_delay := s.fault_alarm_delay
          fault_alarm_repeat := s.fault_alarm_repeat
          fault_alarm_all_threads := s.fault_alarm_all_threads
          dispositions :=
            (install_handlers
              (List.zipWith populate_entry s.fault_handlers fault_signals)
              o.install_ok s.dispositions).2
          pending_alarm := s.pending_alarm }) := by
  simp [faulthandler_enable, h1, h2]

/-! ### Lemmas about the fatal-error scan -/

theorem scan_index_lt :
    ∀ (l : List fault_handler_t) (sig : Int), l ≠ [] →
      scan_index l sig < l.length := by
  intro l
  induction l with
  | nil => intro sig h; exact absurd rfl h
  | cons h t ih =>
      intro sig _
      cases t with
      | nil => simp [scan_index]
      | cons x u =>
          by_cases hm : h.signum = sig
          · simp [scan_index, hm]
          · have := ih sig (by simp)
            simp only [List.length_cons] at this
            simp only [scan_index, hm, if_false, List.length_cons]
            omega

theorem scan_index_of_no_match :
    ∀ (l : List fault_handler_t) (sig : Int), (∀ e ∈ l, e.signum ≠ sig) →
      scan_index l sig = l.length - 1 := by
  intro l
  induction l with
  | nil => intro sig _; simp [scan_index]
  | cons h t ih =>
      intro sig hno
      cases t with
      | nil => simp [scan_index]
      | cons x u =>
          have hh : ¬ h.signum = sig := hno h (by simp)
          have ht : ∀ e ∈ x :: u, e.signum ≠ sig := fun e he =>
            hno e (List.mem_cons_of_mem h he)
          rw [show scan_index (h :: x :: u) sig = scan_index (x :: u) sig + 1 by
            simp [scan_index, hh]]
          rw [ih sig ht]
          simp

theorem scan_index_finds_match :
    ∀ (l : List fault_handler_t) (sig : Int), (∃ e ∈ l, e.signum = sig) →
      ∃ e', l.get? (scan_index l sig) = some e' ∧ e'.signum = sig := by
  intro l
  induction l with
  | nil => intro sig h; simp at h
  | cons h t ih =>
      intro sig hex
      cases t with
      | nil =>
          obtain ⟨e, he, hm⟩ := hex
          simp only [List.mem_singleton] at he
          exact ⟨h, by simp [scan_index], he ▸ hm⟩
      | cons x u =>
          by_cases hm : h.signum = sig
          · exact ⟨h, by simp [scan_index, hm], hm⟩
          · obtain ⟨e, he, hme⟩ := hex
            rcases List.mem_cons.mp he with rfl | he
            · exact absurd hme hm
            · obtain ⟨e', h1, h2⟩ := ih sig ⟨e, he, hme⟩
              exact ⟨e', by simpa [scan_index, hm] using h1, h2⟩

theorem get?_map_signum (l : List fault_handler_t) (n : Nat) :
    (l.map (·.signum)).get? n = (l.get? n).map (·.signum) := by
  induction l generalizing n with
  | nil => simp
  | cons h t ih =>
      cases n with
      | zero => simp
      | succ m => simp

theorem get?_map_entry_name (l : List fault_handler_t) (n : Nat) :
    (l.map (·.name)).get? n = (l.get? n).map (·.name) := by
  induction l generalizing n with
  | nil => simp
  | cons h t ih =>
      cases n with
      | zero => simp
      | succ m => simp

/-! ### String helpers -/

theorem charsLead_append (l m : List Char) : charsLead l (l ++ m) = true := by
  induction l with
  | nil => rfl
  | cons a t ih => simp [charsLead, ih]

theorem strLeads_append (a b : String) : strLeads a (a ++ b) = true := by
  obtain ⟨la⟩ := a
  obtain ⟨lb⟩ := b
  exact charsLead_append la lb

theorem str_append_assoc (a b c : String) : a ++ b ++ c = a ++ (b ++ c) := by
  obtain ⟨x⟩ := a
  obtain ⟨y⟩ := b
  obtain ⟨z⟩ := c
  show String.mk (x ++ y ++ z) = String.mk (x ++ (y ++ z))
  rw [List.append_assoc]

theorem str_empty_append (s : String) : "" ++ s = s := by
  obtain ⟨x⟩ := s
  show String.mk ([] ++ x) = String.mk x
  rw [List.nil_append]

/-! ### Claim theorems -/

/-- Claim C2: `enable()` is idempotent.  If the state is already Enabled a
call returns at once with no exception and the state — handler table,
cached fd, alternate stack, everything — untouched; and running
`faulthandler_enable` a second time in the same environment leaves the
state identical to running it once. -/
theorem C2_enable_idempotent (o : EnableOracle) (s : ProcState) :
    (s.faulthandler_enabled = true → faulthandler_enable o s = (none, s)) ∧
    (faulthandler_enable o (faulthandler_enable o s).2).2 =
      (faulthandler_enable o s).2 := by
  constructor
  · intro h
    simp [faulthandler_enable, h]
  · by_cases h1 : s.faulthandler_enabled
    · simp [faulthandler_enable, h1]
    · by_cases h2 : o.stderr_fd = -1
      · simp [faulthandler_enable, h1, h2]
      · rw [faulthandler_enable_shape o s (by simpa using h1) h2]
        simp [faulthandler_enable]

/-- A state whose controller is already Enabled, for the C2 witness. -/
def s_already_enabled : ProcState :=
  { initial_state with faulthandler_enabled := true }

/-- Witness for C2: concrete second call in the Enabled state is the
identity, and enabling twice from the loaded state equals enabling once. -/
theorem C2_enable_idempotent_witness :
    faulthandler_enable o_all_ok s_already_enabled = (none, s_already_enabled) ∧
    (faulthandler_enable o_all_ok (faulthandler_enable o_all_ok initial_state).2).2 =
      (faulthandler_enable o_all_ok initial_state).2 :=
  ⟨(C2_enable_idempotent o_all_ok s_already_enabled).1 rfl,
    (C2_enable_idempotent o_all_ok initial_state).2⟩

/-- Claim C3: `disable()` is a no-op when already Disabled; otherwise it
clears every entry's flag, restores the stored previous disposition of
every entry that was enabled (the per-signal dispositions being distinct,
as they are for the populated table), and transitions to Disabled. -/
theorem C3_disable_correct (s : ProcState) :
    (s.faulthandler_enabled = false → faulthandler_disable s = s) ∧
    (s.faulthandler_enabled = true →
      (faulthandler_disable s).faulthandler_enabled = false ∧
      (∀ e ∈ (faulthandler_disable s).fault_handlers, e.enabled = false) ∧
      ((s.fault_handlers.map (·.signum)).Nodup →
        ∀ e ∈ s.fault_handlers, e.enabled = true →
          getDisp (faulthandler_disable s).dispositions e.signum = e.previous)) := by
  constructor
  · intro h
    simp [faulthandler_disable, h]
  · intro h
    have hd : faulthandler_disable s =
        { s with
          faulthandler_enabled := false
          fault_handlers := (restore_handlers s.fault_handlers s.dispositions).1
          dispositions := (restore_handlers s.fault_handlers s.dispositions).2 } := by
      simp [faulthandler_disable, h]
    refine ⟨by rw [hd], ?_, ?_⟩
    · rw [hd]
      exact restore_handlers_enabled_false s.fault_handlers s.dispositions
    · intro hnd e he hen
      rw [hd]
      exact restore_handlers_restores s.fault_handlers s.dispositions hnd e he hen

/-- Witness for C3: disabling the fully enabled concrete state clears the
flag and reinstates the default disposition for SIGSEGV. -/
theorem C3_disable_correct_witness :
    (faulthandler_disable enabled_state).faulthandler_enabled = false ∧
    getDisp (faulthandler_disable enabled_state).dispositions SIGSEGV =
      Disposition.dfl := by
  have h := (C3_disable_correct enabled_state).2 rfl
  refine ⟨h.1, ?_⟩
  have hmem :
      ({ signum := SIGSEGV, enabled := true, name := "Segmentation fault",
         previous := Disposition.dfl } : fault_handler_t) ∈
        enabled_state.fault_handlers := by decide
  exact h.2.2 (by decide) _ hmem rfl

/-- Claim C6: the watchdog arm operation rejects every non-positive delay
with the validation error, before any state mutation: the returned state is
the input state, so the watchdog configuration, the SIGALRM disposition and
any pending timer are untouched. -/
theorem C6_arm_rejects_nonpositive (o : ArmOracle) (delay : Int)
    (repeat_flag all_threads : Bool) (s : ProcState) (h : delay ≤ 0) :
    faulthandler_dumpbacktrace_later o delay repeat_flag all_threads s =
      (some "delay must be greater than 0", s) := by
  simp [faulthandler_dumpbacktrace_later, h]

/-- Witness for C6: `delay = -5` on a state with an armed timer. -/
theorem C6_arm_rejects_nonpositive_witness :
    faulthandler_dumpbacktrace_later ⟨2, true⟩ (-5) true false
        { enabled_state with pending_alarm := 3 } =
      (some "delay must be greater than 0",
        { enabled_state with pending_alarm := 3 }) :=
  C6_arm_rejects_nonpositive ⟨2, true⟩ (-5) true false
    { enabled_state with pending_alarm := 3 } (by decide)

/-- Claim C7 counterexample: when target resolution fails, the call does
mutate state — the C code executes `fatal_error_fd = get_stderr()` before
the `-1` test, so the cached descriptor is overwritten with `-1`; the
resulting state differs from the input state. -/
theorem C7_counterexample :
    (faulthandler_enable
        { stderr_fd := -1, altstack_ok := true,
          install_ok := [true, true, true, true] } initial_state).2 ≠
      initial_state := by
  decide

/-- Claim C7 amended: when `enable()` runs in the Disabled state and target
resolution fails, it fails with the resource error; the state stays
Disabled, no alternate stack is allocated, no fault handler is installed
and the table and dispositions are untouched — but the cached output
descriptor is overwritten with the failed resolution result `-1`. -/
theorem C7_resolution_failure (o : EnableOracle) (s : ProcState)
    (h1 : s.faulthandler_enabled = false) (h2 : o.stderr_fd = -1) :
    faulthandler_enable o s =
      (some "unable to get the file descriptor of the standard error",
        { s with fatal_error_fd := -1 }) ∧
    (faulthandler_enable o s).2.faulthandler_enabled = false ∧
    (faulthandler_enable o s).2.fault_handlers = s.fault_handlers ∧
    (faulthandler_enable o s).2.stack_ss_sp = s.stack_ss_sp ∧
    (faulthandler_enable o s).2.dispositions = s.dispositions ∧
    (faulthandler_enable o s).2.pending_alarm = s.pending_alarm := by
  have he : faulthandler_enable o s =
      (some "unable to get the file descriptor of the standard error",
        { s with fatal_error_fd := -1 }) := by
    simp [faulthandler_enable, h1, h2]
  rw [he]
  exact ⟨rfl, h1, rfl, rfl, rfl, rfl⟩

/-- Witness for the amended C7 at the concrete loaded state. -/
theorem C7_resolution_failure_witness :
    faulthandler_enable
        { stderr_fd := -1, altstack_ok := true,
          install_ok := [true, true, true, true] } initial_state =
      (some "unable to get the file descriptor of the standard error",
        { initial_state with fatal_error_fd := -1 }) :=
  (C7_resolution_failure
    { stderr_fd := -1, altstack_ok := true,
      install_ok := [true, true, true, true] } initial_state rfl rfl).1

/-- Claim C9: an all-threads watchdog fire whose thread-local context lookup
returns nothing is a silent no-op: no diagnostic event is emitted, no error
is raised (the handler returns normally), the rest of the state is
untouched, and — the one-shot OS timer having been consumed by the
delivery and the handler not re-arming it — the timer is left canceled,
in particular when `repeat` is unset. -/
theorem C9_null_thread_noop (o : FireOracle) (s : ProcState)
    (hall : s.fault_alarm_all_threads = true) (hnone : o.current_thread = none) :
    deliver_alarm o s = ({ s with pending_alarm := 0 }, []) ∧
    (s.fault_alarm_repeat = false → (deliver_alarm o s).1.pending_alarm = 0) := by
  have h : deliver_alarm o s = ({ s with pending_alarm := 0 }, []) := by
    simp [deliver_alarm, faulthandler_alarm, hall, hnone]
  exact ⟨h, fun _ => by rw [h]⟩

/-- Witness for C9: a repeating all-threads watchdog fire with no execution
context available. -/
theorem C9_null_thread_noop_witness :
    deliver_alarm ⟨none, none⟩
        { enabled_state with
          fault_alarm_all_threads := true
          fault_alarm_repeat := true
          fault_alarm_delay := 3
          pending_alarm := 3 } =
      ({ enabled_state with
         fault_alarm_all_threads := true
         fault_alarm_repeat := true
         fault_alarm_delay := 3
         pending_alarm := 0 }, []) :=
  (C9_null_thread_noop ⟨none, none⟩
    { enabled_state with
      fault_alarm_all_threads := true
      fault_alarm_repeat := true
      fault_alarm_delay := 3
      pending_alarm := 3 } rfl rfl).1

/-- Claim C10 (implicit): `faulthandler_enabled` is set before the alternate
stack allocation and the installation loop, so after an `enable()` whose
target resolution succeeded, `isenabled()` reports true even when the
alternate-stack allocation failed and every per-signal installation failed,
leaving every entry with `enabled = false`. -/
theorem C10_enabled_before_install (o : EnableOracle) (s : ProcState)
    (h1 : s.faulthandler_enabled = false) (h2 : ¬ o.stderr_fd = -1) :
    faulthandler_isenabled (faulthandler_enable o s).2 = true ∧
    (o.altstack_ok = false →
      (faulthandler_enable o s).2.stack_ss_sp = false) ∧
    ((∀ b ∈ o.install_ok, b = false) →
      ∀ e ∈ (faulthandler_enable o s).2.fault_handlers, e.enabled = false) := by
  rw [faulthandler_enable_shape o s h1 h2]
  refine ⟨rfl, fun ha => by rw [ha], fun hall e he => ?_⟩
  simp only at he
  rw [install_handlers_of_all_false _ o.install_ok s.dispositions hall] at he
  exact zipWith_populate_enabled_false _ _ e he

/-- An environment where the alternate-stack allocation and every signal
installation fail, for the C10 witness. -/
def o_all_fail : EnableOracle :=
  { stderr_fd := 2, altstack_ok := false,
    install_ok := [false, false, false, false] }

/-- Witness for C10: every OS installation failing still yields
`isenabled() = true`. -/
theorem C10_enabled_before_install_witness :
    faulthandler_isenabled (faulthandler_enable o_all_fail initial_state).2 = true :=
  (C10_enabled_before_install o_all_fail initial_state rfl (by decide)).1

theorem get?_modify_entry_self :
    ∀ (l : List fault_handler_t) (i : Nat)
      (f : fault_handler_t → fault_handler_t) (h : fault_handler_t),
      l.get? i = some h → (modify_entry l i f).get? i = some (f h) := by
  intro l
  induction l with
  | nil => intro i f h hg; simp at hg
  | cons a t ih =>
      intro i f h hg
      cases i with
      | zero =>
          simp only [List.get?_cons_zero, Option.some.injEq] at hg
          simp [modify_entry, hg]
      | succ m =>
          simp only [List.get?_cons_succ] at hg
          simpa [modify_entry] using ih m f h hg

/-- Claim C8: on a watchdog fire the timer is re-armed for another
`delay`-second interval exactly when the dump succeeded and `repeat` is
set; in all-threads mode a provider-level failure suppresses re-arming even
with `repeat` set; and a successful dump without `repeat` leaves the
watchdog Idle (no pending timer). -/
theorem C8_rearm_iff (o : FireOracle) (s : ProcState)
    (hd : 0 < s.fault_alarm_delay) :
    ((deliver_alarm o s).1.pending_alarm ≠ 0 ↔
      (dump_ok o s = true ∧ s.fault_alarm_repeat = true)) ∧
    (s.fault_alarm_all_threads = true → o.current_thread.isSome = true →
      o.dump_threads_err ≠ none → (deliver_alarm o s).1.pending_alarm = 0) ∧
    (dump_ok o s = true → s.fault_alarm_repeat = false →
      (deliver_alarm o s).1.pending_alarm = 0) ∧
    (dump_ok o s = true → s.fault_alarm_repeat = true →
      (deliver_alarm o s).1.pending_alarm = s.fault_alarm_delay.toNat) := by
  obtain ⟨ct, de⟩ := o
  cases hall : s.fault_alarm_all_threads <;>
    cases hr : s.fault_alarm_repeat <;>
    cases ct <;> cases de <;>
    simp [deliver_alarm, faulthandler_alarm, alarm_finish,
      faulthandler_cancel_dumpbacktrace_later, dump_ok, hall, hr] <;>
    omega

/-- A state with an armed repeating all-threads watchdog, for witnesses. -/
def watchdog_state : ProcState :=
  { enabled_state with
    fault_alarm_fd := 2
    fault_alarm_delay := 3
    fault_alarm_repeat := true
    fault_alarm_all_threads := true
    pending_alarm := 3 }

/-- Witness for C8: with a context available and a successful provider dump,
the repeating watchdog re-arms for another 3 seconds. -/
theorem C8_rearm_iff_witness :
    (deliver_alarm ⟨some (), none⟩ watchdog_state).1.pending_alarm =
      (3 : Int).toNat :=
  (C8_rearm_iff ⟨some (), none⟩ watchdog_state (by decide)).2.2.2 rfl rfl

/-- Claim C5: SIGSEGV sits at the end of the signal table; after a
successful `enable()` the linear scan, on a signal number matching no
entry, yields the last index and hence the segmentation-fault entry, while
a signal number present in the table is found by first match. -/
theorem C5_scan_fallback (o : EnableOracle) (s : ProcState) (signum : Int)
    (h1 : s.faulthandler_enabled = false) (h2 : ¬ o.stderr_fd = -1)
    (hlen : s.fault_handlers.length = NFAULT_SIGNALS)
    (hnm : signum ∉ fault_signals) :
    fault_signals.getLast? = some SIGSEGV ∧
    scan_index (faulthandler_enable o s).2.fault_handlers signum =
      (faulthandler_enable o s).2.fault_handlers.length - 1 ∧
    (∃ e, (faulthandler_enable o s).2.fault_handlers.get?
        (scan_index (faulthandler_enable o s).2.fault_handlers signum) = some e ∧
      e.signum = SIGSEGV ∧ e.name = "Segmentation fault") ∧
    (∀ sg ∈ fault_signals, ∃ e,
      (faulthandler_enable o s).2.fault_handlers.get?
        (scan_index (faulthandler_enable o s).2.fault_handlers sg) = some e ∧
      e.signum = sg) := by
  rw [faulthandler_enable_shape o s h1 h2]
  simp only
  set t := (install_handlers
    (List.zipWith populate_entry s.fault_handlers fault_signals)
    o.install_ok s.dispositions).1 with ht
  have hmap : t.map (·.signum) = fault_signals := by
    rw [ht, install_handlers_map_signum,
      zipWith_populate_map_signum s.fault_handlers fault_signals hlen]
  have hname : t.map (·.name) = fault_signals.map signal_name := by
    rw [ht, install_handlers_map_name,
      zipWith_populate_map_name s.fault_handlers fault_signals hlen]
  have hlt : t.length = 4 := by
    have := congrArg List.length hmap
    simpa using this
  have hnomatch : ∀ e ∈ t, e.signum ≠ signum := by
    intro e he hc
    apply hnm
    rw [← hmap, ← hc]
    exact List.mem_map_of_mem (·.signum) he
  have hscan : scan_index t signum = t.length - 1 :=
    scan_index_of_no_match t signum hnomatch
  refine ⟨rfl, hscan, ?_, ?_⟩
  · have hsg : (t.map (·.signum)).get? 3 = some SIGSEGV := by
      rw [hmap]; rfl
    have hnm3 : (t.map (·.name)).get? 3 = some "Segmentation fault" := by
      rw [hname]; rfl
    rw [get?_map_signum] at hsg
    rw [get?_map_entry_name] at hnm3
    rw [hscan, hlt]
    cases hg : t.get? 3 with
    | none => rw [hg] at hsg; simp at hsg
    | some e =>
        rw [hg] at hsg hnm3
        simp only [Option.map_some', Option.some.injEq] at hsg hnm3
        exact ⟨e, rfl, hsg, hnm3⟩
  · intro sg hsg
    have : sg ∈ t.map (·.signum) := hmap ▸ hsg
    obtain ⟨e, he, hesig⟩ := List.mem_map.mp this
    exact scan_index_finds_match t sg ⟨e, he, hesig⟩

/-- Witness for C5: from the loaded state, signal number 0 matches no entry
and the scan lands on the segmentation-fault entry. -/
theorem C5_scan_fallback_witness :
    ∃ e, enabled_state.fault_handlers.get?
        (scan_index enabled_state.fault_handlers 0) = some e ∧
      e.signum = SIGSEGV ∧ e.name = "Segmentation fault" :=
  (C5_scan_fallback o_all_ok initial_state 0 rfl (by decide) rfl
    (by decide)).2.2.1

/-- Claim C4 counterexample: at SIGSEGV delivery in the fully enabled
concrete state, the diagnostic does not begin with the claimed fixed
message "Fatal error: " followed by the display name — the code's `PUTS`
literal is "Fatal Python error: " (handler.c line 74). -/
theorem C4_counterexample :
    strLeads ("Fatal error: " ++ "Segmentation fault")
      (fatal_output SIGSEGV enabled_state) = false := by
  decide

/-- Claim C4 amended: the diagnostic written to the cached output target
begins with the fixed introductory message "Fatal Python error: " followed
by the matched entry's display name (and the raw writes are exactly that
prefix plus a blank line; the provider dump follows separately). -/
theorem C4_fatal_message (signum : Int) (s : ProcState) (h : fault_handler_t)
    (hh : s.fault_handlers.get? (scan_index s.fault_handlers signum) = some h) :
    fatal_output signum s = "Fatal Python error: " ++ h.name ++ "\n\n" ∧
    strLeads ("Fatal Python error: " ++ h.name) (fatal_output signum s) = true := by
  have hout : fatal_output signum s =
      "Fatal Python error: " ++ h.name ++ "\n\n" := by
    simp only [fatal_output, faulthandler_fatal_error, hh, List.foldl_cons,
      List.foldl_nil]
    rw [str_empty_append]
  refine ⟨hout, ?_⟩
  rw [hout]
  exact strLeads_append ("Fatal Python error: " ++ h.name) "\n\n"

/-- Witness for the amended C4 at SIGSEGV in the enabled concrete state. -/
theorem C4_fatal_message_witness :
    fatal_output SIGSEGV enabled_state =
      "Fatal Python error: " ++ "Segmentation fault" ++ "\n\n" :=
  (C4_fatal_message SIGSEGV enabled_state
    { signum := SIGSEGV, enabled := true, name := "Segmentation fault",
      previous := Disposition.dfl } (by decide)).1

/-- Claim C1: when the fatal fault handler runs, the restore of the matched
entry's previous disposition and the clearing of its enabled flag come
strictly before every diagnostic action: the trace opens with the restore
and the clear (and the new state indeed has the previous disposition
reinstalled and the flag cleared), and every diagnostic event in the trace
sits at a strictly larger position than every restore/clear event. -/
theorem C1_restore_before_diagnostic (signum : Int) (s : ProcState)
    (hne : s.fault_handlers ≠ []) :
    (∃ h, s.fault_handlers.get? (scan_index s.fault_handlers signum) = some h ∧
      (faulthandler_fatal_error signum s).2.get? 0 =
        some (OutEvent.restorePrev h.signum) ∧
      (faulthandler_fatal_error signum s).2.get? 1 =
        some (OutEvent.clearEnabled h.signum) ∧
      getDisp (faulthandler_fatal_error signum s).1.dispositions h.signum =
        h.previous ∧
      (faulthandler_fatal_error signum s).1.fault_handlers.get?
        (scan_index s.fault_handlers signum) =
          some { h with enabled := false }) ∧
    (∀ j k d e,
      (faulthandler_fatal_error signum s).2.get? j = some d →
      d.isDiagnostic = true →
      (faulthandler_fatal_error signum s).2.get? k = some e →
      (e.isRestore = true ∨ e.isClear = true) → k < j) := by
  have hlt := scan_index_lt s.fault_handlers signum hne
  obtain ⟨h, hh⟩ : ∃ h,
      s.fault_handlers.get? (scan_index s.fault_handlers signum) = some h :=
    ⟨s.fault_handlers.get ⟨scan_index s.fault_handlers signum, hlt⟩,
      List.get?_eq_get hlt⟩
  have hh' : s.fault_handlers[scan_index s.fault_handlers signum]? = some h := by
    simpa using hh
  have hev : (faulthandler_fatal_error signum s).2 =
      [OutEvent.restorePrev h.signum, OutEvent.clearEnabled h.signum,
        OutEvent.putsMsg s.fatal_error_fd "Fatal Python error: ",
        OutEvent.putsMsg s.fatal_error_fd h.name,
        OutEvent.putsMsg s.fatal_error_fd "\n\n",
        OutEvent.dumpBacktrace s.fatal_error_fd] := by
    simp [faulthandler_fatal_error, hh']
  have hst : (faulthandler_fatal_error signum s).1 =
      { s with
        dispositions := setDisp s.dispositions h.signum h.previous,
        fault_handlers := modify_entry s.fault_handlers
          (scan_index s.fault_handlers signum)
          fun e => { e with enabled := false } } := by
    simp [faulthandler_fatal_error, hh']
  constructor
  · refine ⟨h, hh, by rw [hev]; rfl, by rw [hev]; rfl, ?_, ?_⟩
    · rw [hst]
      exact getDisp_setDisp_self s.dispositions h.signum h.previous
    · rw [hst]
      exact get?_modify_entry_self s.fault_handlers _ _ h hh
  · intro j k d e hj hdiag hk hre
    rw [hev] at hj hk
    have hj2 : 2 ≤ j := by
      by_contra hc
      push_neg at hc
      interval_cases j <;>
        simp only [List.get?_cons_zero, List.get?_cons_succ,
          Option.some.injEq] at hj <;>
        rw [← hj] at hdiag <;>
        simp [OutEvent.isDiagnostic] at hdiag
    have hk2 : k < 2 := by
      by_contra hc
      push_neg at hc
      obtain ⟨m, rfl⟩ : ∃ m, k = m + 2 := ⟨k - 2, by omega⟩
      simp only [List.get?_cons_succ] at hk
      have hmem : e ∈ [OutEvent.putsMsg s.fatal_error_fd "Fatal Python error: ",
          OutEvent.putsMsg s.fatal_error_fd h.name,
          OutEvent.putsMsg s.fatal_error_fd "\n\n",
          OutEvent.dumpBacktrace s.fatal_error_fd] := List.get?_mem hk
      rcases hre with hre | hre <;>
        simp only [List.mem_cons, List.not_mem_nil, or_false] at hmem <;>
        rcases hmem with rfl | rfl | rfl | rfl <;>
        simp [OutEvent.isRestore, OutEvent.isClear] at hre
    omega

/-- Witness for C1: SIGFPE delivered in the enabled concrete state — the
trace opens with the restore and the clear of the matched entry. -/
theorem C1_restore_before_diagnostic_witness :
    ∃ h, enabled_state.fault_handlers.get?
        (scan_index enabled_state.fault_handlers SIGFPE) = some h ∧
      (faulthandler_fatal_error SIGFPE enabled_state).2.get? 0 =
        some (OutEvent.restorePrev h.signum) ∧
      (faulthandler_fatal_error SIGFPE enabled_state).2.get? 1 =
        some (OutEvent.clearEnabled h.signum) ∧
      getDisp (faulthandler_fatal_error SIGFPE enabled_state).1.dispositions
          h.signum = h.previous ∧
      (faulthandler_fatal_error SIGFPE enabled_state).1.fault_handlers.get?
        (scan_index enabled_state.fault_handlers SIGFPE) =
          some { h with enabled := false } :=
  (C1_restore_before_diagnostic SIGFPE enabled_state (by decide)).1
